import Mathlib

/-!
Verification of the natural-language specification of `eval_poisons_scratch.py`
(BullseyePoison evaluation harness) against a shallow embedding of its code.

Conventions of the embedding:
* Python floats are modelled by exact rationals (`ℚ`); the spec's claims are
  stated as exact arithmetic identities, so `ℚ` is the faithful carrier.
* Fallible Python code (raising `ZeroDivisionError`, `IndexError`, `KeyError`,
  `NameError`) is modelled with `Option`: `none` means the call raises.
* Tensors appear in the claims only through their flattened value lists, so a
  tensor is modelled as `List ℚ`.
* Python dictionaries (whose keys mix `int` and `str`, which matters for the
  resume logic) are modelled as insertion-ordered association lists over an
  explicit key type `PyKey`; `json.dump`/`json.load` round trips are modelled
  including their stringification of integer keys.
-/

/-! ### AverageMeter (eval_poisons_scratch.py lines 24-40) -/

/-- State of the `AverageMeter` class: fields `val`, `avg`, `sum`, `count`. -/
structure AverageMeter where
  val : ℚ
  avg : ℚ
  sum : ℚ
  count : ℚ
deriving DecidableEq, Repr

/-- The `reset` method (lines 30-34): sets all four fields to `0`.
`__init__` calls `reset`, so a fresh meter is `reset` of anything. -/
def AverageMeter.reset (_m : AverageMeter) : AverageMeter :=
  ⟨0, 0, 0, 0⟩

/-- A freshly constructed meter (`AverageMeter()`), i.e. `reset` applied. -/
def AverageMeter.init : AverageMeter :=
  AverageMeter.reset ⟨0, 0, 0, 0⟩

/-- The `update(val, n)` method (lines 36-40): stores `val`, adds `val*n` to
`sum`, adds `n` to `count` and recomputes `avg = sum / count`.  The division
`self.sum / self.count` raises `ZeroDivisionError` when the new count is `0`,
which the embedding models as `none`. -/
def AverageMeter.update (m : AverageMeter) (v n : ℚ) : Option AverageMeter :=
  if m.count + n = 0 then none
  else some ⟨v, (m.sum + v * n) / (m.count + n), m.sum + v * n, m.count + n⟩

/-- Runs a sequence of `update (value, n)` calls from a given meter state,
propagating a raised `ZeroDivisionError` (`none`). -/
def runUpdates (m : AverageMeter) : List (ℚ × ℚ) → Option AverageMeter
  | [] => some m
  | u :: us =>
    match m.update u.1 u.2 with
    | none => none
    | some m1 => runUpdates m1 us

lemma runUpdates_invariant :
    ∀ (us : List (ℚ × ℚ)) (m0 m : AverageMeter), runUpdates m0 us = some m →
      m.sum = m0.sum + (us.map (fun u => u.1 * u.2)).sum ∧
      m.count = m0.count + (us.map Prod.snd).sum ∧
      m.val = (us.map Prod.fst).getLastD m0.val ∧
      m.avg = (if us.isEmpty then m0.avg else m.sum / m.count) := by
  intro us
  induction us with
  | nil =>
    intro m0 m h
    simp only [runUpdates, Option.some.injEq] at h
    subst h
    simp
  | cons u rest ih =>
    intro m0 m h
    simp only [runUpdates] at h
    rcases hupd : m0.update u.1 u.2 with _ | m1
    · rw [hupd] at h; exact absurd h (by simp)
    · rw [hupd] at h
      rw [AverageMeter.update] at hupd
      by_cases hc : m0.count + u.2 = 0
      · rw [if_pos hc] at hupd; exact absurd hupd (by simp)
      · rw [if_neg hc, Option.some.injEq] at hupd
        obtain ⟨hs, hcnt, hv, havg⟩ := ih m1 m h
        subst hupd
        refine ⟨?_, ?_, ?_, ?_⟩
        · simp only at hs
          rw [hs]; simp; ring
        · simp only at hcnt
          rw [hcnt]; simp; ring
        · simp only [List.map_cons, List.getLastD_cons]
          exact hv
        · simp only [List.isEmpty_cons, Bool.false_eq_true, if_false]
          cases rest with
          | nil =>
            simp only [runUpdates, Option.some.injEq] at h
            subst h
            rfl
          | cons r rs =>
            simpa using havg

/-- Claim C3: for every sequence of `update(value_i, n_i)` calls following
`reset()` that completes without raising, the accumulator satisfies
`sum = Σ value_i * n_i`, `count = Σ n_i`, `avg = (Σ value_i * n_i) / (Σ n_i)`
and `val` equals the most recent `value_i` (the reset value `0` when the
sequence is empty). -/
theorem C3_accumulator_correct (m0 : AverageMeter) (us : List (ℚ × ℚ))
    (m : AverageMeter) (h : runUpdates (AverageMeter.reset m0) us = some m) :
    m.sum = (us.map (fun u => u.1 * u.2)).sum ∧
    m.count = (us.map Prod.snd).sum ∧
    m.avg = (us.map (fun u => u.1 * u.2)).sum / (us.map Prod.snd).sum ∧
    m.val = (us.map Prod.fst).getLastD 0 := by
  obtain ⟨hs, hc, hv, havg⟩ := runUpdates_invariant us (AverageMeter.reset m0) m h
  simp only [AverageMeter.reset, zero_add] at hs hc hv havg
  refine ⟨hs, hc, ?_, hv⟩
  rcases he : us.isEmpty with _ | _
  · rw [he] at havg
    simp only [Bool.false_eq_true, if_false] at havg
    rw [havg, hs, hc]
  · rw [he] at havg
    have hus : us = [] := List.isEmpty_iff.mp he
    subst hus
    simpa using havg

/-- Witness for C3 at a concrete run: updates `(3,1)` then `(5,2)` starting
from a reset meter reach `val = 5`, `sum = 13`, `count = 3`, `avg = 13/3`. -/
theorem C3_accumulator_correct_witness :
    ((⟨5, 13 / 3, 13, 3⟩ : AverageMeter).sum
        = ([((3 : ℚ), (1 : ℚ)), (5, 2)].map (fun u => u.1 * u.2)).sum) ∧
    ((⟨5, 13 / 3, 13, 3⟩ : AverageMeter).count
        = ([((3 : ℚ), (1 : ℚ)), (5, 2)].map Prod.snd).sum) ∧
    ((⟨5, 13 / 3, 13, 3⟩ : AverageMeter).avg
        = ([((3 : ℚ), (1 : ℚ)), (5, 2)].map (fun u => u.1 * u.2)).sum
            / ([((3 : ℚ), (1 : ℚ)), (5, 2)].map Prod.snd).sum) ∧
    ((⟨5, 13 / 3, 13, 3⟩ : AverageMeter).val
        = ([((3 : ℚ), (1 : ℚ)), (5, 2)].map Prod.fst).getLastD 0) :=
  C3_accumulator_correct ⟨9, 9, 9, 9⟩ [(3, 1), (5, 2)] ⟨5, 13 / 3, 13, 3⟩
    (by norm_num [runUpdates, AverageMeter.update, AverageMeter.reset])

/-- Claim C4 counterexample: after `reset()` and before any `update()`, reading
`avg` does NOT fail with a divide-by-zero — `reset` stores the literal `0` in
the `avg` attribute and the read is plain attribute access, so it yields the
defined value `0`.  The claim asserts the read "must raise or be explicitly
guarded; it is not a defined value", which is false. -/
theorem C4_counterexample :
    (AverageMeter.reset ⟨1, 2, 3, 4⟩).avg = 0 := rfl

/-- Claim C4 (amended): after `reset()` and before any `update()`, reading
`avg` yields the defined value `0` (no exception); the division by `count` is
performed only inside `update`, which is where a `ZeroDivisionError` can occur
(e.g. `update(0, 0)` on a fresh meter divides by a zero count). -/
theorem C4_amended_read_defined :
    AverageMeter.init.avg = 0 ∧ AverageMeter.init.update 0 0 = none := by
  refine ⟨rfl, ?_⟩
  simp [AverageMeter.init, AverageMeter.reset, AverageMeter.update]

/-! ### accuracy (eval_poisons_scratch.py lines 43-57) -/

/-- Indices of the `k` highest-scoring classes of one output row, highest
first, embedding `output.topk(maxk, 1, True, True)` for that row.  Ties are
broken index-stably (stable sort), matching the spec's reproducibility
requirement for the tie-break. -/
def topkIdx (row : List ℚ) (k : ℕ) : List ℕ :=
  (List.insertionSort (fun i j => row.getD j 0 ≤ row.getD i 0)
    (List.range row.length)).take k

/-- The `accuracy(output, target, topk)` function (lines 43-57): `output` is
the batch-by-classes score matrix, `target` the true labels, and for each `k`
in `topk` the result is `correct_k * (100 / batch_size)` where `correct_k`
counts, over the batch, the positions among each row's top-`maxk` predictions
truncated to the first `k` (`correct[:k]`) that equal the row's label. -/
def accuracy (output : List (List ℚ)) (target : List ℕ) (topk : List ℕ) :
    List ℚ :=
  let maxk := topk.foldr Nat.max 0
  topk.map (fun k =>
    ((((output.zip target).map
        (fun p => ((topkIdx p.1 maxk).take k).countP (fun i => i == p.2))).sum : ℕ) : ℚ)
      * (100 / (target.length : ℚ)))

lemma countP_take_le (l : List ℕ) (p : ℕ → Bool) {a b : ℕ} (hab : a ≤ b) :
    (l.take a).countP p ≤ (l.take b).countP p := by
  have h1 : l.take a = (l.take b).take a := by
    rw [List.take_take, min_eq_left hab]
  rw [h1]
  exact (List.take_sublist a (l.take b)).countP_le p

/-- Claim C5: for every batch of output scores (with at least 5 classes per
row, as `topk(5)` requires) and ground-truth labels, the accuracy value
returned for `k = 5` is greater than or equal to the value returned for
`k = 1` in the same `accuracy(output, target, (1, 5))` call. -/
theorem C5_topk_monotone (output : List (List ℚ)) (target : List ℕ)
    (h : ∀ row ∈ output, 5 ≤ row.length) :
    (accuracy output target [1, 5]).getD 0 0
      ≤ (accuracy output target [1, 5]).getD 1 0 := by
  simp only [accuracy, List.map_cons, List.map_nil, List.getD_cons_zero,
    List.getD_cons_succ]
  apply mul_le_mul_of_nonneg_right
  · apply Nat.cast_le.mpr
    apply List.sum_le_sum
    intro p _hp
    exact countP_take_le _ _ (by norm_num)
  · apply div_nonneg (by norm_num) (Nat.cast_nonneg _)

/-- Witness for C5 at a concrete batch: one example with six classes whose
true label is `0`. -/
theorem C5_topk_monotone_witness :
    (accuracy [[0, 1, 2, 3, 4, 5]] [0] [1, 5]).getD 0 0
      ≤ (accuracy [[0, 1, 2, 3, 4, 5]] [0] [1, 5]).getD 1 0 :=
  C5_topk_monotone [[0, 1, 2, 3, 4, 5]] [0] (by decide)

/-! ### Learning-rate decay (eval_poisons_scratch.py lines 81-89) -/

/-- One epoch's decay check (lines 87-89): at the start of epoch `epoch`, if
`epoch in args.lr_decay_epoch`, every optimizer parameter group's learning
rate is multiplied by `0.1`. -/
def lrDecayStep (decay : List ℕ) (epoch : ℕ) (groups : List ℚ) : List ℚ :=
  if epoch ∈ decay then groups.map (fun lr => lr * (1 / 10)) else groups

/-- Learning rates of all parameter groups in effect during epoch `e` of the
retraining loop (`for epoch in range(args.retrain_epochs)`), i.e. after the
decay checks of epochs `0, 1, ..., e` have been applied to the initial
rates `groups0`. -/
def lrGroupsAt (decay : List ℕ) (groups0 : List ℚ) : ℕ → List ℚ
  | 0 => lrDecayStep decay 0 groups0
  | e + 1 => lrDecayStep decay (e + 1) (lrGroupsAt decay groups0 e)

/-- Cumulative decay factor for the default schedule `[30, 45]`. -/
def decayFactor (e : ℕ) : ℚ :=
  if 45 ≤ e then 1 / 100 else if 30 ≤ e then 1 / 10 else 1

lemma lrGroupsAt_closed_form (groups0 : List ℚ) (e : ℕ) :
    lrGroupsAt [30, 45] groups0 e = groups0.map (fun L => L * decayFactor e) := by
  induction e with
  | zero =>
    show lrDecayStep [30, 45] 0 groups0 = _
    rw [lrDecayStep, if_neg (by decide)]
    have h0 : decayFactor 0 = 1 := by decide
    rw [h0]
    simp
  | succ e ih =>
    show lrDecayStep [30, 45] (e + 1) (lrGroupsAt [30, 45] groups0 e) = _
    rw [ih, lrDecayStep]
    by_cases hm : e + 1 ∈ ([30, 45] : List ℕ)
    · rw [if_pos hm, List.map_map]
      have hor : e + 1 = 30 ∨ e + 1 = 45 := by simpa using hm
      have hfun : ((fun lr : ℚ => lr * (1 / 10)) ∘ fun L : ℚ => L * decayFactor e)
          = fun L : ℚ => L * decayFactor (e + 1) := by
        funext L
        rcases hor with h30 | h45
        · have he : e = 29 := by omega
          subst he
          norm_num [decayFactor, Function.comp]
        · have he : e = 44 := by omega
          subst he
          norm_num [decayFactor, Function.comp]
          ring
      rw [hfun]
    · rw [if_neg hm]
      have hne : e + 1 ≠ 30 ∧ e + 1 ≠ 45 := by
        constructor <;> (intro hx; exact hm (by simp [hx]))
      have hfac : decayFactor (e + 1) = decayFactor e := by
        rw [decayFactor, decayFactor]
        rcases hne with ⟨h1, h2⟩
        split_ifs <;> first | rfl | omega
      rw [hfac]

/-- Claim C6: with decay epochs `[30, 45]` and initial learning rates
`groups0`, the rates in effect are unchanged before epoch 30, are `0.1` times
the initial rates for epochs 30 through 44, and `0.01` times the initial rates
from epoch 45 on; at a non-listed epoch boundary the rates are unchanged, and
at a listed epoch every group's rate is multiplied by `0.1` (so the decays are
cumulative). -/
theorem C6_lr_decay_schedule (groups0 : List ℚ) (e : ℕ) :
    (e < 30 → lrGroupsAt [30, 45] groups0 e = groups0) ∧
    (30 ≤ e → e < 45 →
      lrGroupsAt [30, 45] groups0 e = groups0.map (fun L => L * (1 / 10))) ∧
    (45 ≤ e →
      lrGroupsAt [30, 45] groups0 e = groups0.map (fun L => L * (1 / 100))) ∧
    (∀ d, d + 1 ∉ ([30, 45] : List ℕ) →
      lrGroupsAt [30, 45] groups0 (d + 1) = lrGroupsAt [30, 45] groups0 d) ∧
    (∀ d, d + 1 ∈ ([30, 45] : List ℕ) →
      lrGroupsAt [30, 45] groups0 (d + 1)
        = (lrGroupsAt [30, 45] groups0 d).map (fun lr => lr * (1 / 10))) := by
  refine ⟨?_, ?_, ?_, ?_, ?_⟩
  · intro h1
    rw [lrGroupsAt_closed_form]
    have : decayFactor e = 1 := by rw [decayFactor]; split_ifs <;> first | rfl | omega
    rw [this]
    simp
  · intro h1 h2
    rw [lrGroupsAt_closed_form]
    have : decayFactor e = 1 / 10 := by rw [decayFactor]; split_ifs <;> first | rfl | omega
    rw [this]
  · intro h1
    rw [lrGroupsAt_closed_form]
    have : decayFactor e = 1 / 100 := by rw [decayFactor]; split_ifs <;> first | rfl | omega
    rw [this]
  · intro d hd
    show lrDecayStep [30, 45] (d + 1) (lrGroupsAt [30, 45] groups0 d) = _
    rw [lrDecayStep, if_neg hd]
  · intro d hd
    show lrDecayStep [30, 45] (d + 1) (lrGroupsAt [30, 45] groups0 d) = _
    rw [lrDecayStep, if_pos hd]

/-- Witness for C6 with initial rate `7` at epochs 10, 30 and 45. -/
theorem C6_lr_decay_schedule_witness :
    lrGroupsAt [30, 45] [7] 10 = [7] ∧
    lrGroupsAt [30, 45] [7] 30 = [7].map (fun L => L * (1 / 10)) ∧
    lrGroupsAt [30, 45] [7] 45 = [7].map (fun L => L * (1 / 100)) :=
  ⟨(C6_lr_decay_schedule [7] 10).1 (by decide),
   (C6_lr_decay_schedule [7] 30).2.1 (by decide) (by decide),
   (C6_lr_decay_schedule [7] 45).2.2.1 (by decide)⟩

/-! ### Run-state aggregator (eval_poisons_scratch.py lines 291-356)

Python dictionaries distinguish the integer key `5` from the string key
`"5"`; `json.dump` stringifies integer keys (possibly writing duplicate keys)
and `json.load` rebuilds a dictionary from the serialized pairs in order, so a
repeated key keeps its first position and its last value.  The per-iteration
result blob is opaque to the bookkeeping and is modelled by a type parameter
`B`; the loading of poisons, `get_stats` and the per-victim retraining
(lines 330-350) are abstracted into `comp : ℕ → B`. -/

/-- A Python dictionary key: either an `int` or a `str`. -/
inductive PyKey where
  | pint : ℕ → PyKey
  | pstr : String → PyKey
deriving BEq, DecidableEq, Repr

/-- Key stringification performed by `json.dump` on an `int` dict key. -/
def PyKey.jsonKey : PyKey → String
  | .pint n => toString n
  | .pstr s => s

/-- Python `k in d` on a dictionary modelled as an association list. -/
def dictMem (k : PyKey) (d : List (PyKey × α)) : Bool :=
  d.any (fun p => p.1 == k)

/-- Python `d[k] = v`: replaces the value in place if `k` is present,
otherwise appends the pair (insertion order). -/
def dictSet (k : PyKey) (v : α) (d : List (PyKey × α)) : List (PyKey × α) :=
  if dictMem k d then d.map (fun p => if p.1 == k then (k, v) else p)
  else d ++ [(k, v)]

/-- Python `d[k]`, `none` modelling a raised `KeyError`. -/
def dictGet? (k : PyKey) (d : List (PyKey × α)) : Option α :=
  (d.find? (fun p => p.1 == k)).map Prod.snd

/-- Serialized form of the `targets` value of the results JSON file: key order
as written, duplicates possible (from `json.dump` on a dict holding both the
int key `i` and the str key `str(i)`). -/
abbrev SerTargets (B : Type) := List (String × List (String × B))

/-- `json.load` of one serialized inner dict: string keys, successive
insertion (first position, last value wins for duplicates). -/
def jsonLoadInner (s : List (String × B)) : List (PyKey × B) :=
  s.foldl (fun d p => dictSet (PyKey.pstr p.1) p.2 d) []

/-- `json.load` of the serialized `targets` mapping. -/
def jsonLoadTargets (s : SerTargets B) : List (PyKey × List (PyKey × B)) :=
  s.foldl (fun d p => dictSet (PyKey.pstr p.1) (jsonLoadInner p.2) d) []

/-- `json.dump` of the in-memory `targets` mapping: stringifies keys at both
levels, keeping order and duplicates. -/
def jsonDumpTargets (t : List (PyKey × List (PyKey × B))) : SerTargets B :=
  t.map (fun p => (p.1.jsonKey, p.2.map (fun q => (q.1.jsonKey, q.2))))

/-- The configured checkpoint-iteration list (line 318). -/
def ites : List ℕ := [1, 51, 101, 201, 401, 801, 1601, 2801, 4000]

/-- The traversal order of the sweep, `ites[::-1]` (line 320). -/
def itesRev : List ℕ := ites.reverse

/-- The body of the `for ite in ites[::-1]` loop (lines 320-350) for one
target index: `skip it` is `it in all_res['targets'][str(target_idx)]`
(line 321, `continue` when true); `ckpt it` is the existence check on the
poison checkpoint file (line 326; when false, `no_save = False; break`);
`comp it` is the per-iteration computation whose result is stored in
`res[ite]`.  Returns the accumulated `res` (insertion order) and the final
`no_save` flag. -/
def sweepLoop (skip ckpt : ℕ → Bool) (comp : ℕ → B) :
    List ℕ → List (ℕ × B) × Bool
  | [] => ([], true)
  | it :: rest =>
    if skip it then sweepLoop skip ckpt comp rest
    else if ckpt it then
      let r := sweepLoop skip ckpt comp rest
      ((it, comp it) :: r.1, r.2)
    else ([], false)

/-- The in-memory `all_res['targets']` after lines 307-314: reading a missing
results file gives `{}`, and then `'targets' not in all_res` makes the code
install `{str(target_idx): {}}`; an existing file is `json.load`ed. -/
def loadedTargets (idx : ℕ) (file : Option (SerTargets B)) :
    List (PyKey × List (PyKey × B)) :=
  match file with
  | none => [(PyKey.pstr (toString idx), [])]
  | some s => jsonLoadTargets s

/-- Outcome of one target index's sweep: `written` is the serialized
`targets` mapping of the rewritten results file (`none` when the file is not
rewritten), `computed` is the list of iterations recomputed in this
invocation, in traversal order. -/
structure RunOut (B : Type) where
  written : Option (SerTargets B)
  computed : List ℕ
deriving DecidableEq, Repr

/-- One target index of the sweep (lines 307-356).  `none` models an uncaught
exception: a `KeyError` at `all_res['targets'][str(target_idx)]` (line 321)
when that key is missing, or the `NameError` at
`all_res['poison_idx_list'] = base_idx_list` (line 353) when `no_save` is
still true but no checkpoint was loaded in this invocation (so
`base_idx_list` was never bound; this models an invocation processing this
single target index).  When `no_save` is true the persist step (lines
351-356) stores `res` under the INTEGER key `target_idx` (line 352) and
rewrites the JSON file; when `no_save` is false nothing is written. -/
def runTarget (idx : ℕ) (file : Option (SerTargets B)) (ckpt : ℕ → Bool)
    (comp : ℕ → B) : Option (RunOut B) :=
  match dictGet? (PyKey.pstr (toString idx)) (loadedTargets idx file) with
  | none => none
  | some done =>
    let r := sweepLoop (fun it => dictMem (PyKey.pint it) done) ckpt comp itesRev
    if r.2 then
      if r.1.isEmpty then none
      else
        some ⟨some (jsonDumpTargets
                (dictSet (PyKey.pint idx)
                  (r.1.map (fun p => (PyKey.pint p.1, p.2)))
                  (loadedTargets idx file))),
              r.1.map Prod.fst⟩
    else some ⟨none, r.1.map Prod.fst⟩

lemma sweepLoop_abort (skip ckpt : ℕ → Bool) (comp : ℕ → B) :
    ∀ l : List ℕ, (∃ it ∈ l, skip it = false ∧ ckpt it = false) →
      (sweepLoop skip ckpt comp l).2 = false := by
  intro l
  induction l with
  | nil => rintro ⟨it, hmem, _⟩; cases hmem
  | cons a rest ih =>
    rintro ⟨it, hmem, hskip, hckpt⟩
    rw [sweepLoop]
    by_cases hsa : skip a
    · rw [if_pos hsa]
      apply ih
      refine ⟨it, ?_, hskip, hckpt⟩
      rcases List.mem_cons.mp hmem with h | h
      · subst h; rw [hsa] at hskip; cases hskip
      · exact h
    · rw [if_neg hsa]
      by_cases hca : ckpt a
      · rw [if_pos hca]
        simp only
        apply ih
        refine ⟨it, ?_, hskip, hckpt⟩
        rcases List.mem_cons.mp hmem with h | h
        · subst h; rw [hca] at hckpt; cases hckpt
        · exact h
      · rw [if_neg hca]

lemma sweepLoop_computed_sublist (skip ckpt : ℕ → Bool) (comp : ℕ → B) :
    ∀ l : List ℕ,
      List.Sublist ((sweepLoop skip ckpt comp l).1.map Prod.fst) l := by
  intro l
  induction l with
  | nil => simp [sweepLoop]
  | cons a rest ih =>
    rw [sweepLoop]
    by_cases hsa : skip a
    · rw [if_pos hsa]
      exact ih.cons a
    · rw [if_neg hsa]
      by_cases hca : ckpt a
      · rw [if_pos hca]
        simpa using ih.cons₂ a
      · rw [if_neg hca]
        simp

/-- Claim C2: if, for a target index, the checkpoint file of some pending
iteration (one not recorded under `targets[str(target_idx)]`) is absent, then
nothing is persisted for that target index in this invocation — the sweep
aborts with `no_save = False`, the results file is not rewritten (so it
contains exactly the previously persisted entries) — and the invocation does
not raise, proceeding to the next target index. -/
theorem C2_abort_atomicity (B : Type) (idx : ℕ) (file : Option (SerTargets B))
    (ckpt : ℕ → Bool) (comp : ℕ → B) (done : List (PyKey × B))
    (hdone : dictGet? (PyKey.pstr (toString idx)) (loadedTargets idx file)
      = some done)
    (hmiss : ∃ it ∈ itesRev, dictMem (PyKey.pint it) done = false
      ∧ ckpt it = false) :
    (runTarget idx file ckpt comp).map RunOut.written = some none := by
  rw [runTarget, hdone]
  have habort :
      (sweepLoop (fun it => dictMem (PyKey.pint it) done) ckpt comp itesRev).2
        = false := by
    apply sweepLoop_abort
    exact hmiss
  dsimp only
  rw [habort]
  simp

/-- Witness for C2: fresh results file, no checkpoint file exists; iteration
4000 is pending and its checkpoint is missing, so nothing is written. -/
theorem C2_abort_atomicity_witness :
    (runTarget 0 none (fun _ => false) (fun _ => (0 : ℕ))).map RunOut.written
      = some none :=
  C2_abort_atomicity ℕ 0 none (fun _ => false) (fun _ => 0) []
    (by rfl) ⟨4000, by decide, by rfl, by rfl⟩

/-- Claim C7: the configured checkpoint-iteration list is strictly ascending
and the sweep traverses it reversed (`ites[::-1]`), i.e. in strictly
descending order of iteration number; the iterations actually attempted are a
subsequence of that descending traversal, so a higher iteration is always
attempted before any lower one in the same invocation. -/
theorem C7_descending_order (B : Type) (skip ckpt : ℕ → Bool) (comp : ℕ → B) :
    itesRev = ites.reverse ∧
    List.Pairwise (fun a b => a < b) ites ∧
    List.Pairwise (fun a b => b < a) itesRev ∧
    List.Sublist ((sweepLoop skip ckpt comp itesRev).1.map Prod.fst) itesRev :=
  ⟨rfl, by decide, by decide, sweepLoop_computed_sublist skip ckpt comp itesRev⟩

/-- First invocation for target index 5: no results file yet, every poison
checkpoint present; the per-iteration result blob is abstracted to `0`. -/
def resumeRun1 : Option (RunOut ℕ) :=
  runTarget 5 none (fun _ => true) (fun _ => 0)

/-- The serialized `targets` mapping of the results file written by the first
invocation. -/
def resumeFile1 : SerTargets ℕ :=
  ((resumeRun1.map RunOut.written).getD none).getD []

/-- Second invocation with identical inputs: it reads back the results file
written by the first one, and no new checkpoint files appeared. -/
def resumeRun2 : Option (RunOut ℕ) :=
  runTarget 5 (some resumeFile1) (fun _ => true) (fun _ => 0)

/-- Claim C1 is violated by the code (code bug): after a completed first
invocation, the results file does record every iteration's result under
`targets["5"]` — but the second invocation with identical inputs recomputes
all nine iterations anyway.  `json.dump` stringifies the integer iteration
keys of `res` (line 352 stores them as ints under the int key `target_idx`,
line 321 looks them up as ints under `str(target_idx)`), so on resume the
membership test `ite in all_res['targets'][str(target_idx)]` compares the int
`ite` against string keys and never succeeds: presence is NOT treated as
completion, contradicting the claimed invariant. -/
theorem C1_resume_recomputes :
    (resumeRun1.map RunOut.computed
      = some [4000, 2801, 1601, 801, 401, 201, 101, 51, 1]) ∧
    (dictGet? (PyKey.pstr "5") (jsonLoadTargets resumeFile1)
      = some [(PyKey.pstr "4000", 0), (PyKey.pstr "2801", 0),
              (PyKey.pstr "1601", 0), (PyKey.pstr "801", 0),
              (PyKey.pstr "401", 0), (PyKey.pstr "201", 0),
              (PyKey.pstr "101", 0), (PyKey.pstr "51", 0),
              (PyKey.pstr "1", 0)]) ∧
    (resumeRun2.map RunOut.computed
      = some [4000, 2801, 1601, 801, 401, 201, 101, 51, 1]) :=
  ⟨rfl, rfl, rfl⟩

/-! ### Target index range (eval_poisons_scratch.py lines 291-293) -/

/-- Elements of Python `range(cur, stop, step)` generated with explicit fuel;
an element is produced while `cur < stop` (positive step) or `cur > stop`
(negative step). -/
def pyRangeAux : ℕ → ℤ → ℤ → ℤ → List ℤ
  | 0, _, _, _ => []
  | fuel + 1, cur, stop, step =>
    if (0 < step ∧ cur < stop) ∨ (step < 0 ∧ stop < cur) then
      cur :: pyRangeAux fuel (cur + step) stop step
    else []

/-- Python `range(start, stop, step)` as a list; `none` models the
`ValueError` raised on a zero step.  `(stop - start).natAbs` bounds the length
of the range for either sign of `step`, so it is sufficient fuel. -/
def pyRange (start stop step : ℤ) : Option (List ℤ) :=
  if step = 0 then none
  else some (pyRangeAux (stop - start).natAbs start stop step)

/-- Lines 291-292: a `target_index_end` of `-1` is replaced by
`target_index_start + 1` before the sweep. -/
def effectiveEnd (start endArg : ℤ) : ℤ :=
  if endArg = -1 then start + 1 else endArg

/-- The target indices the sweep iterates over (line 293). -/
def targetIndices (start endArg step : ℤ) : Option (List ℤ) :=
  pyRange start (effectiveEnd start endArg) step

/-- Claim C10 counterexample: with `target_index_end` left at `-1` and
`target_index_step = -1`, the sweep processes NO target index at all —
`range(start, start + 1, -1)` is empty — rather than exactly one as the
claim asserts for every configured step. -/
theorem C10_counterexample :
    targetIndices 0 (-1) (-1) = some [] ∧ ¬ ([] = [(0 : ℤ)]) := by
  constructor
  · rfl
  · simp

/-- Claim C10 (amended): when `target_index_end` is left at its default `-1`
it is replaced by `target_index_start + 1` before the sweep begins, so for
every POSITIVE `target_index_step` exactly one target index —
`target_index_start` — is processed; a non-positive step does not yield that
single index (a negative step gives an empty range, a zero step raises). -/
theorem C10_amended_default_end (start step : ℤ) (hstep : 1 ≤ step) :
    targetIndices start (-1) step = some [start] := by
  have hs0 : step ≠ 0 := by omega
  rw [targetIndices, effectiveEnd, if_pos rfl, pyRange, if_neg hs0]
  have hfuel : (start + 1 - start).natAbs = 1 := by
    have h1 : start + 1 - start = 1 := by ring
    rw [h1]
    rfl
  rw [hfuel, pyRangeAux, if_pos (Or.inl ⟨by omega, by omega⟩)]
  rfl

/-- Witness for C10 (amended) at `start = 7`, `step = 3`. -/
theorem C10_amended_default_end_witness :
    targetIndices 7 (-1) 3 = some [7] :=
  C10_amended_default_end 7 3 (by norm_num)

/-! ### Final-epoch scoring (eval_poisons_scratch.py lines 117-133, 156-158)

The retraining loop's gradient updates are outside the claims; the network at
scoring time is abstracted as a function `net` from an image (its flattened
values) to the per-class score list.  What is embedded is the control flow of
lines 117-133: the target and poison predictions are computed only during the
epoch with `epoch == args.retrain_epochs - 1`, and the variables holding them
are otherwise unbound, so the return statement (lines 156-158) raises a
`NameError` when the loop body never ran. -/

/-- Index of the top-1 class of a score list, `scores.topk(1, 1, True, True)`
(lines 124 and 128). -/
def argTop1 (scores : List ℚ) : ℕ :=
  (topkIdx scores 1).headD 0

/-- The `prediction` and `poisons predictions` fields of the result blob
returned by `train_network_with_poison` (lines 156-158). -/
structure RetResult where
  prediction : ℕ
  poisonsPredictions : List ℕ
deriving DecidableEq, Repr

/-- The epoch loop of lines 81-133 restricted to the binding of the scoring
variables: each epoch leaves the accumulator unchanged except the final one
(`epoch == retrain_epochs - 1`), which binds the target's top-1 prediction and
the per-poison top-1 predictions. -/
def finalPreds (retrainEpochs : ℕ) (net : List ℚ → List ℚ) (target : List ℚ)
    (poisons : List (List ℚ)) : Option (ℕ × List ℕ) :=
  (List.range retrainEpochs).foldl
    (fun acc epoch =>
      if epoch = retrainEpochs - 1 then
        some (argTop1 (net target), poisons.map (fun p => argTop1 (net p)))
      else acc)
    none

/-- The `prediction` / `poisons predictions` part of
`train_network_with_poison` (lines 60-158); `none` models the `NameError`
raised at the return statement when `retrain_epochs = 0` leaves `target_pred`
and `poison_pred_list` unbound. -/
def train_network_with_poison (retrainEpochs : ℕ) (net : List ℚ → List ℚ)
    (target : List ℚ) (poisons : List (List ℚ)) : Option RetResult :=
  (finalPreds retrainEpochs net target poisons).map (fun p => ⟨p.1, p.2⟩)

lemma finalPreds_of_pos (retrainEpochs : ℕ) (net : List ℚ → List ℚ)
    (target : List ℚ) (poisons : List (List ℚ)) (h : 1 ≤ retrainEpochs) :
    finalPreds retrainEpochs net target poisons
      = some (argTop1 (net target), poisons.map (fun p => argTop1 (net p))) := by
  obtain ⟨m, rfl⟩ : ∃ m, retrainEpochs = m + 1 :=
    ⟨retrainEpochs - 1, by omega⟩
  rw [finalPreds, List.range_succ, List.foldl_append]
  simp

/-- Claim C9: for a victim model whose top-1 predicted class is 3 for every
input, a poison set of 5 images, and at least one retraining epoch, the
result blob's `prediction` field is 3 and its `poisons predictions` field is
a list of exactly five entries all equal to 3, regardless of the rest of the
poisoned dataset (which the scoring never consults). -/
theorem C9_constant_predictor (retrainEpochs : ℕ) (net : List ℚ → List ℚ)
    (target : List ℚ) (poisons : List (List ℚ))
    (hep : 1 ≤ retrainEpochs) (hlen : poisons.length = 5)
    (hnet : ∀ x, argTop1 (net x) = 3) :
    train_network_with_poison retrainEpochs net target poisons
      = some ⟨3, List.replicate 5 3⟩ := by
  rw [train_network_with_poison,
    finalPreds_of_pos retrainEpochs net target poisons hep]
  have hmap : poisons.map (fun p => argTop1 (net p))
      = List.replicate 5 3 := by
    have h1 : poisons.map (fun p => argTop1 (net p))
        = poisons.map (Function.const (List ℚ) 3) := by
      apply List.map_congr_left
      intro a _ha
      exact hnet a
    rw [h1, List.map_const, hlen]
  simp [hmap, hnet target]

/-- Witness for C9: two retraining epochs, five empty poison images, and a
network constantly scoring class 3 highest. -/
theorem C9_constant_predictor_witness :
    train_network_with_poison 2 (fun _ => [0, 0, 0, 1]) []
      [[], [], [], [], []] = some ⟨3, List.replicate 5 3⟩ :=
  C9_constant_predictor 2 (fun _ => [0, 0, 0, 1]) [] [[], [], [], [], []]
    (by norm_num) (by rfl) (fun x => by rfl)

/-! ### get_stats (eval_poisons_scratch.py lines 161-209)

The log-parsing prologue (lines 162-178) reads the companion log file; its
three outputs — the elapsed-seconds `diff` and the two string tokens
`target_loss` and `loss` sliced out of the matching log line — enter the
embedding as parameters.  A checkpoint entry of `coeff_list` /
`coeff_list_in_victim` is either a tensor (modelled by its flattened value
list) or a Python list of tensors (the end2end layout); the code dispatches on
`type(res['coeff_list'][0]) == list`, which raises `IndexError` on an empty
list.  A 0-dim tensor value such as `res['target_loss']` is modelled by its
rational value (`.item()` is the identity on it). -/

/-- One entry of a checkpoint coefficient list. -/
inductive CoeffEntry where
  | ten : List ℚ → CoeffEntry
  | tlist : List (List ℚ) → CoeffEntry
deriving DecidableEq, Repr

/-- A converted coefficient list as stored in the output mapping: either a
list of flattened tensors or (end2end) a list of lists of flattened tensors.
The fallback for an absent key, the plain `[]`, is represented as
`Sum.inl []`. -/
abbrev CoeffOut := List (List ℚ) ⊕ List (List (List ℚ))

/-- Extracts a tensor entry; `none` models the `AttributeError` raised when
`r.view(-1)` is applied to a non-tensor. -/
def CoeffEntry.asTen : CoeffEntry → Option (List ℚ)
  | .ten l => some l
  | .tlist _ => none

/-- Extracts a list-of-tensors entry. -/
def CoeffEntry.asTlist : CoeffEntry → Option (List (List ℚ))
  | .tlist l => some l
  | .ten _ => none

/-- The conversion of lines 194-198 (and 201-205): dispatch on the type of
entry 0 — `IndexError` (`none`) on an empty list — then convert every entry
with `view(-1)...tolist()`, which on the model is the identity on the
flattened values. -/
def convertCoeffs : List CoeffEntry → Option CoeffOut
  | [] => none
  | e :: rest =>
    match e with
    | .tlist _ => ((e :: rest).mapM CoeffEntry.asTlist).map Sum.inr
    | .ten _ => ((e :: rest).mapM CoeffEntry.asTen).map Sum.inl

/-- The optional keys of the loaded checkpoint mapping (`state_dict`) that
`get_stats` consumes. -/
structure CkptRes where
  coeffs_time : Option ℚ
  poisons_time : Option ℚ
  target_loss : Option ℚ
  total_loss : Option ℚ
  coeff_list : Option (List CoeffEntry)
  coeff_list_in_victim : Option (List CoeffEntry)
deriving DecidableEq, Repr

/-- The output mapping built by `get_stats` (lines 180-209).  A loss field is
either the checkpoint's float (`Sum.inl`) or the log-derived string token
(`Sum.inr`). -/
structure StatsOut where
  time : ℚ
  coeffs_time : ℚ
  poisons_time : ℚ
  target_loss : ℚ ⊕ String
  total_loss : ℚ ⊕ String
  coeff_list : CoeffOut
  coeff_list_in_victim : CoeffOut
deriving DecidableEq, Repr

/-- A present-or-fallback coefficient field: `out['coeff_list']` is the
converted checkpoint value when the key is present (raising on an empty or
heterogeneous list) and the empty list when absent. -/
def coeffField (v : Option (List CoeffEntry)) : Option CoeffOut :=
  match v with
  | some l => convertCoeffs l
  | none => some (Sum.inl [])

/-- The `get_stats(log_path, res, ite)` function, lines 180-209 (the
log-parsing prologue enters as the parameters `diff`, `logTargetLoss`,
`logTotalLoss`).  `none` models an uncaught exception during the coefficient
conversions. -/
def get_stats (diff : ℚ) (logTargetLoss logTotalLoss : String)
    (res : CkptRes) : Option StatsOut :=
  match coeffField res.coeff_list, coeffField res.coeff_list_in_victim with
  | some cl, some clv =>
    some ⟨diff,
          res.coeffs_time.getD (-1),
          res.poisons_time.getD (-1),
          (match res.target_loss with
            | some q => Sum.inl q
            | none => Sum.inr logTargetLoss),
          (match res.total_loss with
            | some q => Sum.inl q
            | none => Sum.inr logTotalLoss),
          cl, clv⟩
  | _, _ => none

/-- Claim C8 counterexample: `coeff_list` present in the checkpoint as the
empty list makes `get_stats` raise (`type(res['coeff_list'][0])` is an
`IndexError`), so the output does NOT take the checkpoint's value for a
present key in this case — no output is produced at all. -/
theorem C8_counterexample :
    get_stats 0 "a" "b" ⟨none, none, none, none, some [], none⟩ = none := rfl

/-- Claim C8 (amended): whenever `get_stats` returns (in particular whenever
the two coefficient lists, when present, are nonempty and homogeneous), each
of the six fields obeys checkpoint-precedence: a present `coeffs_time` /
`poisons_time` / `target_loss` / `total_loss` key supplies the output value,
with fallbacks `-1`, `-1`, the log-derived `target_loss` token and the
log-derived `loss` token respectively when absent; a present `coeff_list` /
`coeff_list_in_victim` key supplies its converted value, with fallback `[]`
when absent. -/
theorem C8_checkpoint_precedence (diff : ℚ) (lt ll : String) (res : CkptRes)
    (out : StatsOut) (h : get_stats diff lt ll res = some out) :
    out.coeffs_time = res.coeffs_time.getD (-1) ∧
    out.poisons_time = res.poisons_time.getD (-1) ∧
    out.target_loss = (match res.target_loss with
      | some q => Sum.inl q
      | none => Sum.inr lt) ∧
    out.total_loss = (match res.total_loss with
      | some q => Sum.inl q
      | none => Sum.inr ll) ∧
    (∀ l, res.coeff_list = some l → convertCoeffs l = some out.coeff_list) ∧
    (res.coeff_list = none → out.coeff_list = Sum.inl []) ∧
    (∀ l, res.coeff_list_in_victim = some l
      → convertCoeffs l = some out.coeff_list_in_victim) ∧
    (res.coeff_list_in_victim = none
      → out.coeff_list_in_victim = Sum.inl []) := by
  rw [get_stats] at h
  rcases hcl : coeffField res.coeff_list with _ | cl
  · rw [hcl] at h; cases h
  rcases hclv : coeffField res.coeff_list_in_victim with _ | clv
  · rw [hcl, hclv] at h; cases h
  rw [hcl, hclv] at h
  simp only [Option.some.injEq] at h
  subst h
  refine ⟨rfl, rfl, rfl, rfl, ?_, ?_, ?_, ?_⟩
  · intro l hl
    rw [hl] at hcl
    exact hcl.symm ▸ rfl
  · intro hl
    rw [hl] at hcl
    simp only [coeffField, Option.some.injEq] at hcl
    exact hcl.symm
  · intro l hl
    rw [hl] at hclv
    exact hclv.symm ▸ rfl
  · intro hl
    rw [hl] at hclv
    simp only [coeffField, Option.some.injEq] at hclv
    exact hclv.symm

/-- Witness for C8 (amended) at a concrete checkpoint mapping with a present
`coeffs_time`, a present nonempty homogeneous `coeff_list`, and the other
optional keys absent. -/
theorem C8_checkpoint_precedence_witness :
    (⟨0, 2, -1, Sum.inl 1, Sum.inr "y", Sum.inl [[1, 2]], Sum.inl []⟩
        : StatsOut).coeffs_time
      = (⟨some 2, none, some 1, none, some [CoeffEntry.ten [1, 2]], none⟩
          : CkptRes).coeffs_time.getD (-1) :=
  (C8_checkpoint_precedence 0 "y" "y"
    ⟨some 2, none, some 1, none, some [CoeffEntry.ten [1, 2]], none⟩
    ⟨0, 2, -1, Sum.inl 1, Sum.inr "y", Sum.inl [[1, 2]], Sum.inl []⟩ rfl).1
